import Mathlib

/-!
Shallow embedding of `bert_main2.py` (a BERT fine-tuning driver for FAQ
best-answer selection) and proofs about its metric functions, dataset
adapter, feature cache, training/evaluation loops, log-directory setup and
checkpoint policy.

Machine floats of the Python source are modelled by rationals (and by reals
where a square root occurs, in the correlation metrics); numpy arrays by
lists; the opaque ML framework pieces (model forward pass, optimizer,
scheduler, tokenizer) by explicit per-step input data.
-/

namespace BertMain

/-! ## Command-line arguments (argparse block, lines 234-271) -/

/-- Run arguments of `main`, with the argparse defaults of the source.
Rates given in scientific notation in the source are exact rationals here. -/
structure Args where
  seed : ℕ := 42
  data_dir : String
  output_dir : String := "BERT_output"
  do_train : Bool := false
  do_eval : Bool := false
  evaluate_during_training : Bool := false
  max_seq_length : ℕ := 100
  max_steps : ℤ := -1
  warmup_steps : ℕ := 0
  gradient_accumulation_steps : ℕ := 1
  num_train_epochs : ℕ := 3
  learning_rate : ℚ := 1 / 100000
  weight_decay : ℚ := 0
  max_grad_norm : ℚ := 1
  adam_epsilon : ℚ := 1 / 100000000
  train_batch_size : ℕ := 64
  logging_steps : ℕ := 50
  log_path : String := ""
  deriving DecidableEq

/-! ## Metric helpers (lines 32-56) -/

/-- Embedding of `simple_accuracy` (line 32): `(preds == labels).mean()`,
the mean of the elementwise equality indicator array. -/
def simple_accuracy (preds labels : List ℤ) : ℚ :=
  (List.zipWith (fun p l => if p = l then (1 : ℚ) else 0) preds labels).sum / preds.length

/-- Count of positions where the prediction satisfies `pp` and the label
satisfies `pl`; used to express the confusion-matrix entries behind
the sklearn binary `f1_score` call of line 37. -/
def pairCount (preds labels : List ℤ) (pp pl : ℤ → Prop)
    [DecidablePred pp] [DecidablePred pl] : ℕ :=
  ((preds.zip labels).filter (fun x => decide (pp x.1) && decide (pl x.2))).length

/-- Embedding of the sklearn binary `f1_score(y_true=labels, y_pred=preds)`
call of line 37 with positive label 1: `2*tp / (2*tp + fp + fn)`, and 0 when
that denominator is zero (the sklearn zero-division fallback). -/
def f1_score (labels preds : List ℤ) : ℚ :=
  let tp : ℕ := pairCount preds labels (· = 1) (· = 1)
  let fp : ℕ := pairCount preds labels (· = 1) (· ≠ 1)
  let fn : ℕ := pairCount preds labels (· ≠ 1) (· = 1)
  if 2 * tp + fp + fn = 0 then 0 else (2 * tp : ℚ) / (2 * tp + fp + fn)

/-- Result record of `acc_and_f1` (lines 35-42). -/
structure AccF1 where
  acc : ℚ
  f1 : ℚ
  acc_and_f1 : ℚ
  deriving DecidableEq

/-- Embedding of `acc_and_f1` (lines 35-42). -/
def acc_and_f1 (preds labels : List ℤ) : AccF1 :=
  let acc := simple_accuracy preds labels
  let f1 := f1_score labels preds
  { acc := acc, f1 := f1, acc_and_f1 := (acc + f1) / 2 }

/-! ## Correlation metrics (lines 44-51), over ℝ because of the square root -/

/-- Mean of a list of rationals (division by zero for the empty list,
matching the total division of ℚ). -/
def lmean (xs : List ℚ) : ℚ := xs.sum / xs.length

/-- List with the mean subtracted from every element. -/
def centered (xs : List ℚ) : List ℚ := xs.map (· - lmean xs)

/-- Sum of elementwise products: the inner product of two lists. -/
def ldot (xs ys : List ℚ) : ℚ := (List.zipWith (· * ·) xs ys).sum

/-- Sum of squared deviations from the mean; the variance of `xs` scaled by
the (fixed) length, so it is nonzero exactly when the variance is. -/
def ssq (xs : List ℚ) : ℚ := ((centered xs).map (fun z => z * z)).sum

/-- Embedding of the scipy `pearsonr(preds, labels)[0]` call of line 45:
the centered inner product divided by the square root of the product of the
squared-deviation sums. -/
noncomputable def pearsonr (x y : List ℚ) : ℝ :=
  ((ldot (centered x) (centered y) : ℚ) : ℝ) / Real.sqrt ((ssq x * ssq y : ℚ) : ℝ)

/-- Average rank (scipy `rankdata` convention) of the value `v` within the
list `xs`: ties receive the mean of the positions they occupy. -/
def rankOf (xs : List ℚ) (v : ℚ) : ℚ :=
  ((xs.countP (· < v) : ℚ) + (xs.countP (· ≤ v) : ℚ) + 1) / 2

/-- Average ranks of the elements of `xs`, elementwise. -/
def ranks (xs : List ℚ) : List ℚ := xs.map (rankOf xs)

/-- Embedding of the scipy `spearmanr(preds, labels)[0]` call of line 46:
the Pearson correlation of the average ranks. -/
noncomputable def spearmanr (x y : List ℚ) : ℝ := pearsonr (ranks x) (ranks y)

/-- Result record of `pearson_and_spearman` (lines 44-51). -/
structure PearsonSpearman where
  pearson : ℝ
  spearmanr : ℝ
  corr : ℝ

/-- Embedding of `pearson_and_spearman` (lines 44-51). -/
noncomputable def pearson_and_spearman (preds labels : List ℚ) : PearsonSpearman :=
  let pearson_corr := pearsonr preds labels
  let spearman_corr := spearmanr preds labels
  { pearson := pearson_corr
    spearmanr := spearman_corr
    corr := (pearson_corr + spearman_corr) / 2 }

/-! ## Dataset adapter: `FAQProcessor` (lines 58-78) -/

/-- A CSV cell, which pandas may have read as a string or as a number. -/
inductive Cell
  | str (v : String)
  | int (v : ℤ)
  deriving DecidableEq

/-- Python `str()` coercion applied to a cell, as in lines 72-73. -/
def cellStr : Cell → String
  | .str v => v
  | .int v => toString v

/-- Pandas `astype(int)` coercion applied to a cell, as in line 74:
numeric cells pass through, strings are parsed, anything unparsable raises
(modelled by `none`). -/
def cellInt : Cell → Option ℤ
  | .str v => v.toInt?
  | .int v => some v

/-- One data row of `train.csv` / `dev.csv`, restricted to the three columns
the adapter reads. -/
structure Row where
  title : Cell
  reply : Cell
  is_best : Cell
  deriving DecidableEq

/-- Embedding of the transformers `InputExample` fields used by the script. -/
structure InputExample where
  guid : ℕ
  text_a : String
  text_b : String
  label : ℤ
  deriving DecidableEq

/-- Recursion behind `_create_examples`: build the example with index `i`
for the head row and continue; a label cell that `astype(int)` cannot
convert makes the whole call raise (`none`). -/
def mkExamples : ℕ → List Row → Option (List InputExample)
  | _, [] => some []
  | i, r :: rs =>
    match cellInt r.is_best, mkExamples (i + 1) rs with
    | some l, some es =>
        some ({ guid := i, text_a := cellStr r.title, text_b := cellStr r.reply,
                label := l } :: es)
    | _, _ => none

/-- Embedding of `FAQProcessor._create_examples` (lines 69-78): coerce the
`title` and `reply` columns to strings, the `is_best` column to integers,
and emit one `InputExample` per row, in file order, with the row index as
`guid`. -/
def _create_examples (rows : List Row) : Option (List InputExample) :=
  mkExamples 0 rows

/-! ## Feature cache: `load_and_cache_examples` (lines 186-231) -/

/-- World state seen by `load_and_cache_examples`: the cache files on disk
(by filename), plus instrumentation counters for tokenizer invocations and
source-CSV reads. `F` is the (opaque) feature type produced by the
transformers `glue_convert_examples_to_features` helper. -/
structure CacheWorld (F : Type) where
  cache : String → Option (List F)
  tokenizerCalls : ℕ
  csvReads : ℕ

/-- Errors `load_and_cache_examples` can propagate when the cache misses. -/
inductive LoadErr
  | csvMissing
  | badLabel
  deriving DecidableEq

/-- Fixed cache filename per split (line 188): the name depends only on the
split, not on any configuration. -/
def cached_features_file (evaluate : Bool) : String :=
  if evaluate then "cached_dev_bert" else "cached_train_bert"

/-- Embedding of `load_and_cache_examples` (lines 186-231). `csv` is the
filesystem view of the CSV files by path; `convert` stands for the
tokenizer-driven `glue_convert_examples_to_features` call (its `max_length`
argument made explicit). On a cache hit the serialized features are
returned as they are and nothing else happens; on a miss the examples are
read, converted, and the result is serialized under the fixed per-split
filename. The final `TensorDataset` assembly (lines 226-230) repackages
the same feature contents, so the dataset is represented by the feature
list itself. -/
def load_and_cache_examples {F : Type} (args : Args)
    (csv : String → Option (List Row))
    (convert : List InputExample → ℕ → List F)
    (evaluate : Bool) (w : CacheWorld F) :
    Except LoadErr (List F) × CacheWorld F :=
  match w.cache (cached_features_file evaluate) with
  | some features => (.ok features, w)
  | none =>
    let path := args.data_dir ++ (if evaluate then "/dev.csv" else "/train.csv")
    match csv path with
    | none => (.error .csvMissing, { w with csvReads := w.csvReads + 1 })
    | some rows =>
      match _create_examples rows with
      | none => (.error .badLabel, { w with csvReads := w.csvReads + 1 })
      | some examples =>
        let features := convert examples args.max_seq_length
        (.ok features,
          { cache := fun n =>
              if n = cached_features_file evaluate then some features else w.cache n
            tokenizerCalls := w.tokenizerCalls + 1
            csvReads := w.csvReads + 1 })

/-! ## Log directory setup (lines 311-315) -/

/-- Flat filesystem model: the set of existing directories and the files,
each file a pair of its directory and its name. -/
structure FileSys where
  dirs : List String
  files : List (String × String)
  deriving DecidableEq

/-- A filesystem is well formed when every file lives in an existing
directory. -/
def FileSys.WF (fs : FileSys) : Prop :=
  ∀ f ∈ fs.files, f.1 ∈ fs.dirs

/-- Path of the log directory, `os.path.join(args.output_dir, args.log_path)`. -/
def logDirPath (args : Args) : String :=
  args.output_dir ++ "/" ++ args.log_path

/-- Embedding of lines 311-315 of `main`: create the log directory when it
does not exist, otherwise `os.remove` every file listed inside it. -/
def setupLogDir (fs : FileSys) (d : String) : FileSys :=
  if d ∈ fs.dirs then
    { fs with files := fs.files.filter (fun f => f.1 ≠ d) }
  else
    { fs with dirs := d :: fs.dirs }

/-! ## Training loop: `train` (lines 80-142) -/

/-- Data produced by the opaque framework pieces at one training step: the
batch loss returned by the model forward pass, the learning rate the
scheduler reports after its `step()` call, the per-example two-class logits
and the batch labels. -/
structure StepData where
  loss : ℚ
  lr : ℚ
  logits : List (ℚ × ℚ)
  labels : List ℤ
  deriving DecidableEq, Inhabited

/-- Elementwise `np.argmax(..., axis=1)` over a two-column logits row:
index 1 exactly when the second logit is strictly larger (numpy returns the
first maximal index on ties). -/
def argmax2 (p : ℚ × ℚ) : ℕ :=
  if p.1 < p.2 then 1 else 0

/-- One line of `train_loss_file.txt` as written at line 131:
iteration (the global step), learning rate, and the logged loss value. -/
structure LossLine where
  step : ℕ
  lr : ℚ
  loss : ℚ
  deriving DecidableEq, Inhabited

/-- One line of `train_acc_file.txt` as written at line 137: iteration,
learning rate, the loss value the line reports, and the data the
`results` field is computed from - the arguments `total_preds`
(`np.argmax` of the accumulated logits) and `out_label_ids` passed to
`acc_f1_pea_spea` at line 134, whose record the source formats into the
line. -/
structure AccLine where
  step : ℕ
  lr : ℚ
  loss : ℚ
  preds : List ℕ
  labels : List ℤ
  deriving DecidableEq, Inhabited

/-- Mutable state of the training loop body (lines 85-141). -/
structure TrainState where
  tr_loss : ℚ
  logging_loss : ℚ
  global_step : ℕ
  predsAcc : List (ℚ × ℚ)
  labelsAcc : List ℤ
  lossLines : List LossLine
  accLines : List AccLine
  deriving DecidableEq, Inhabited

/-- Initial training-loop state (lines 85-89). -/
def initTrainState : TrainState :=
  { tr_loss := 0, logging_loss := 0, global_step := 0,
    predsAcc := [], labelsAcc := [], lossLines := [], accLines := [] }

/-- One iteration of the training loop body (lines 91-141): accumulate the
loss into `tr_loss` and `logging_loss`, increment the global step, append
the batch logits and labels to the running accumulators, and on every
global step divisible by 100 write a loss-file line with
`logging_loss / (global_step * train_batch_size)`, reset `logging_loss` to
zero, write the acc-file line (whose loss field reuses the just-reset
`logging_loss`), and clear the prediction/label accumulators. -/
def trainStep (bs : ℕ) (st : TrainState) (sd : StepData) : TrainState :=
  let tr_loss := st.tr_loss + sd.loss
  let logging_loss := st.logging_loss + sd.loss
  let global_step := st.global_step + 1
  let predsAcc := st.predsAcc ++ sd.logits
  let labelsAcc := st.labelsAcc ++ sd.labels
  if global_step % 100 = 0 then
    let line : LossLine :=
      { step := global_step, lr := sd.lr,
        loss := logging_loss / ((global_step : ℚ) * (bs : ℚ)) }
    let logging_loss := (0 : ℚ)
    let accLine : AccLine :=
      { step := global_step, lr := sd.lr,
        loss := logging_loss / ((global_step : ℚ) * (bs : ℚ)),
        preds := predsAcc.map argmax2, labels := labelsAcc }
    { tr_loss := tr_loss, logging_loss := logging_loss,
      global_step := global_step, predsAcc := [], labelsAcc := [],
      lossLines := st.lossLines ++ [line], accLines := st.accLines ++ [accLine] }
  else
    { tr_loss := tr_loss, logging_loss := logging_loss,
      global_step := global_step, predsAcc := predsAcc, labelsAcc := labelsAcc,
      lossLines := st.lossLines, accLines := st.accLines }

/-- Failure of a Python division by an integer zero. -/
inductive DivErr
  | divByZero
  deriving DecidableEq

instance {ε α : Type} [DecidableEq ε] [DecidableEq α] : DecidableEq (Except ε α) :=
  fun a b =>
    match a, b with
    | .ok x, .ok y => decidable_of_iff (x = y) (by simp)
    | .error e, .error f => decidable_of_iff (e = f) (by simp)
    | .ok _, .error _ => isFalse (by simp)
    | .error _, .ok _ => isFalse (by simp)

/-- Observable outcome of one `train` call: the lines appended to the two
log files, and the end-of-epoch mean loss `tr_loss / global_step` printed at
line 142, which raises `ZeroDivisionError` when the loop ran zero steps. -/
structure TrainOut where
  lossLines : List LossLine
  accLines : List AccLine
  epochLoss : Except DivErr ℚ
  deriving DecidableEq

/-- Embedding of `train` (lines 80-142): fold the loop body over the
per-step data of the epoch, then report the log lines and the end-of-epoch
mean loss. -/
def train (args : Args) (steps : List StepData) : TrainOut :=
  let st := steps.foldl (trainStep args.train_batch_size) initTrainState
  { lossLines := st.lossLines
    accLines := st.accLines
    epochLoss :=
      if st.global_step = 0 then .error .divByZero
      else .ok (st.tr_loss / (st.global_step : ℚ)) }

/-! ## Evaluation loop: `evaluate` (lines 144-184) -/

/-- Embedding of `evaluate` (lines 144-184): accumulate the loss (divided
by `gradient_accumulation_steps` when that exceeds 1, lines 163-164), count
the steps, and accumulate logits and labels; afterwards return
`tr_loss / (global_step * train_batch_size)` together with the data the
returned `results` record is computed from - the `np.argmax` predictions
and the labels passed to `acc_f1_pea_spea` at line 182. A zero
`global_step * train_batch_size` raises `ZeroDivisionError` at line 179. -/
def evaluate (args : Args) (steps : List StepData) :
    Except DivErr (ℚ × (List ℕ × List ℤ)) :=
  let adj : ℚ → ℚ := fun l =>
    if 1 < args.gradient_accumulation_steps then
      l / (args.gradient_accumulation_steps : ℚ)
    else l
  let tr_loss := (steps.map (fun sd => adj sd.loss)).sum
  let global_step := steps.length
  let predsAcc := (steps.map StepData.logits).flatten
  let labelsAcc := (steps.map StepData.labels).flatten
  if global_step * args.train_batch_size = 0 then .error .divByZero
  else
    .ok (tr_loss / ((global_step : ℚ) * (args.train_batch_size : ℚ)),
      (predsAcc.map argmax2, labelsAcc))

/-! ## Checkpoint policy of the epoch loop (lines 310, 319-331) -/

/-- Recursion of the epoch loop as far as checkpointing is concerned
(lines 319-331): `best` is `best_acc_f1`, `i` the epoch index, and the input
list carries the per-epoch combined accuracy/F1 value
(`results[1]['acc_and_f1']`). A save event records the epoch index and the
metric value that became the new best. -/
def saveEvents (best : ℚ) (i : ℕ) : List ℚ → List (ℕ × ℚ)
  | [] => []
  | m :: rest =>
    if best < m then (i, m) :: saveEvents m (i + 1) rest
    else saveEvents best (i + 1) rest

/-- Save events of a whole run: `best_acc_f1` starts at 0 (line 310) and the
epoch counter at 0. -/
def checkpointSaves (ms : List ℚ) : List (ℕ × ℚ) :=
  saveEvents 0 0 ms

/-- Best-so-far tracker: the running maximum of the metric values seen,
starting from the initial `best_acc_f1 = 0`. -/
def bestFold (ms : List ℚ) : ℚ :=
  ms.foldl max 0

/-- Checkpoint artifacts written by lines 327-331 at each save: the model
and tokenizer states (opaque) together with the run arguments serialized to
`training_args_bert.bin` by `torch.save(args, ...)`. We record, per save
event, the epoch index and the `Args` value written into the checkpoint. -/
def checkpointArgsFiles (args : Args) (ms : List ℚ) : List (ℕ × Args) :=
  (checkpointSaves ms).map (fun p => (p.1, args))

/-! ## Closed-form description of the training-loop state, used to settle
the claims about the periodic log lines -/

/-- Steps of the k-th complete logging interval: positions
`100*k, ..., 100*k + 99` of the epoch. -/
def chunk (steps : List StepData) (k : ℕ) : List StepData :=
  (steps.drop (100 * k)).take 100

/-- Loss-file line produced at the k-th log event (k counted from 0): the
global step is `100*(k+1)`, the learning rate is the one of the step that
triggered the event, and the logged loss is the loss accumulated since the
last event divided by `global_step * train_batch_size` - the divisor the
source actually uses at line 131. -/
def lossLineSpec (bs : ℕ) (steps : List StepData) (k : ℕ) : LossLine :=
  { step := 100 * (k + 1)
    lr := (steps.getD (100 * k + 99) default).lr
    loss := ((chunk steps k).map StepData.loss).sum / ((100 * (k + 1) : ℚ) * (bs : ℚ)) }

/-- Acc-file line produced at the k-th log event: its loss field is the
just-reset `logging_loss`, and its prediction/label data cover exactly the
steps of the k-th interval, because both accumulators are cleared at every
event. -/
def accLineSpec (bs : ℕ) (steps : List StepData) (k : ℕ) : AccLine :=
  { step := 100 * (k + 1)
    lr := (steps.getD (100 * k + 99) default).lr
    loss := (0 : ℚ) / ((100 * (k + 1) : ℚ) * (bs : ℚ))
    preds := (((chunk steps k).map StepData.logits).flatten).map argmax2
    labels := ((chunk steps k).map StepData.labels).flatten }

/-- Closed form of the training-loop state after all steps of the epoch:
`q = n / 100` log events have fired, and the running accumulators hold the
data of the trailing incomplete interval. -/
def trainStateSpec (bs : ℕ) (steps : List StepData) : TrainState :=
  let n := steps.length
  let q := n / 100
  { tr_loss := (steps.map StepData.loss).sum
    logging_loss := ((steps.drop (100 * q)).map StepData.loss).sum
    global_step := n
    predsAcc := ((steps.drop (100 * q)).map StepData.logits).flatten
    labelsAcc := ((steps.drop (100 * q)).map StepData.labels).flatten
    lossLines := (List.range q).map (lossLineSpec bs steps)
    accLines := (List.range q).map (accLineSpec bs steps) }

/-! ## Concrete run data used by the counterexamples and witnesses -/

/-- A concrete `Args` value: all argparse defaults, a data directory, and a
log path. -/
def argsA : Args :=
  { data_dir := "data", log_path := "run1" }

/-- The same run arguments with a different `--logging_steps` value. -/
def argsB : Args :=
  { data_dir := "data", log_path := "run1", logging_steps := 100 }

/-- A 200-step epoch in which every batch has loss 1 and no examples
recorded (the logit and label content does not matter for the loss log). -/
def steps200 : List StepData :=
  List.replicate 200 { loss := 1, lr := 0, logits := [], labels := [] }

/-- A cache world in which the dev-split cache file already exists. -/
def wHit : CacheWorld ℕ :=
  { cache := fun n => if n = "cached_dev_bert" then some [3] else none,
    tokenizerCalls := 5, csvReads := 2 }

/-- A cache world with no cache files at all. -/
def wMiss : CacheWorld ℕ :=
  { cache := fun _ => none, tokenizerCalls := 0, csvReads := 0 }

/-- A one-row train CSV under the data directory of `argsA`. -/
def csvData : String → Option (List Row) := fun p =>
  if p = "data/train.csv"
  then some [{ title := .str "t", reply := .str "r", is_best := .int 1 }]
  else none

/-- A stub feature converter recording how many examples it saw and the
maximum length it was given. -/
def convertLen : List InputExample → ℕ → List ℕ := fun es len => [es.length, len]

/-! # Theorems -/

/-! ## C4: combined accuracy/F1 -/

/-- The indicator sum behind `simple_accuracy` counts the agreeing
positions. -/
lemma indicator_sum_eq_countP (preds labels : List ℤ) :
    (List.zipWith (fun p l => if p = l then (1 : ℚ) else 0) preds labels).sum =
      ((preds.zip labels).countP (fun x => x.1 = x.2) : ℚ) := by
  induction preds generalizing labels with
  | nil => simp
  | cons p ps ih =>
    cases labels with
    | nil => simp
    | cons l ls =>
      simp only [List.zipWith_cons_cons, List.sum_cons, List.zip_cons_cons,
        List.countP_cons, ih]
      by_cases h : p = l
      · simp only [h, if_pos rfl]
        norm_num
        ring
      · simp [h]

/-- C4: for equal-length prediction and label arrays with values in {0,1},
the `acc_and_f1` field of the record returned by `acc_and_f1` is exactly
the arithmetic mean of its `acc` field - the fraction of positions where
the prediction equals the label - and its `f1` field. -/
theorem acc_and_f1_combined (preds labels : List ℤ)
    (hlen : preds.length = labels.length)
    (hp : ∀ x ∈ preds, x = 0 ∨ x = 1)
    (hl : ∀ x ∈ labels, x = 0 ∨ x = 1) :
    (acc_and_f1 preds labels).acc_and_f1 =
      ((acc_and_f1 preds labels).acc + (acc_and_f1 preds labels).f1) / 2 ∧
    (acc_and_f1 preds labels).acc =
      ((preds.zip labels).countP (fun x => x.1 = x.2) : ℚ) / (preds.length : ℚ) := by
  refine ⟨rfl, ?_⟩
  simp [acc_and_f1, simple_accuracy, indicator_sum_eq_countP]

/-- Witness for C4 at a concrete input. -/
theorem acc_and_f1_combined_witness :
    (([1, 0, 1] : List ℤ).length = ([1, 1, 0] : List ℤ).length ∧
      (∀ x ∈ ([1, 0, 1] : List ℤ), x = 0 ∨ x = 1) ∧
      (∀ x ∈ ([1, 1, 0] : List ℤ), x = 0 ∨ x = 1)) ∧
    (acc_and_f1 [1, 0, 1] [1, 1, 0]).acc_and_f1 =
      ((acc_and_f1 [1, 0, 1] [1, 1, 0]).acc + (acc_and_f1 [1, 0, 1] [1, 1, 0]).f1) / 2 ∧
    (acc_and_f1 [1, 0, 1] [1, 1, 0]).acc =
      ((([1, 0, 1] : List ℤ).zip [1, 1, 0]).countP (fun x => x.1 = x.2) : ℚ) /
        (([1, 0, 1] : List ℤ).length : ℚ) :=
  ⟨⟨rfl, by decide, by decide⟩,
    acc_and_f1_combined [1, 0, 1] [1, 1, 0] rfl (by decide) (by decide)⟩

/-! ## C10: empty datasets make both loops fail -/

/-- C10: on a dataset yielding zero batches, the end-of-epoch mean-loss
division of `train` divides by a zero step count, and `evaluate` likewise
fails with its mean-loss division by zero instead of returning a result. -/
theorem empty_dataset_fails (args : Args) :
    (train args []).epochLoss = .error .divByZero ∧
    evaluate args [] = .error .divByZero := by
  exact ⟨rfl, by simp [evaluate]⟩

/-! ## C7: log directory setup -/

/-- C7: on a well-formed filesystem, after the setup step of `main` the log
directory `<output_dir>/<log_path>` exists and contains no files: it is
created when absent, and otherwise every file inside it is deleted. -/
theorem setupLogDir_creates_empty (args : Args) (fs : FileSys) (h : fs.WF) :
    logDirPath args ∈ (setupLogDir fs (logDirPath args)).dirs ∧
    (setupLogDir fs (logDirPath args)).files.filter
      (fun f => f.1 = logDirPath args) = [] := by
  by_cases hd : logDirPath args ∈ fs.dirs
  · refine ⟨by simp [setupLogDir, hd], ?_⟩
    simp only [setupLogDir, if_pos hd]
    rw [List.filter_filter, List.filter_eq_nil_iff]
    intro f _
    by_cases hf : f.1 = logDirPath args <;> simp [hf]
  · refine ⟨by simp [setupLogDir, hd], ?_⟩
    simp only [setupLogDir, if_neg hd]
    rw [List.filter_eq_nil_iff]
    intro f hf
    have hmem := h f hf
    simp only [decide_eq_true_eq]
    intro heq
    exact hd (heq ▸ hmem)

/-- Witness for C7 at a concrete filesystem that already holds the log
directory with two stale files. -/
theorem setupLogDir_creates_empty_witness :
    FileSys.WF
      { dirs := ["BERT_output/run1"],
        files := [("BERT_output/run1", "a.txt"), ("BERT_output/run1", "b.txt")] } ∧
    (logDirPath argsA ∈
      (setupLogDir
        { dirs := ["BERT_output/run1"],
          files := [("BERT_output/run1", "a.txt"), ("BERT_output/run1", "b.txt")] }
        (logDirPath argsA)).dirs ∧
     (setupLogDir
        { dirs := ["BERT_output/run1"],
          files := [("BERT_output/run1", "a.txt"), ("BERT_output/run1", "b.txt")] }
        (logDirPath argsA)).files.filter
          (fun f => f.1 = logDirPath argsA) = []) :=
  ⟨by simp [FileSys.WF],
    setupLogDir_creates_empty argsA
      { dirs := ["BERT_output/run1"],
        files := [("BERT_output/run1", "a.txt"), ("BERT_output/run1", "b.txt")] }
      (by simp [FileSys.WF])⟩

/-! ## C6: dataset adapter -/

/-- Closed form of `mkExamples` when every label cell converts: one example
per row, in order, with consecutive indices. -/
lemma mkExamples_eq (rows : List Row) (i : ℕ)
    (h : ∀ r ∈ rows, (cellInt r.is_best).isSome) :
    mkExamples i rows = some ((rows.enumFrom i).map fun p =>
      { guid := p.1, text_a := cellStr p.2.title, text_b := cellStr p.2.reply,
        label := (cellInt p.2.is_best).getD 0 }) := by
  induction rows generalizing i with
  | nil => simp [mkExamples]
  | cons r rs ih =>
    obtain ⟨l, hl⟩ := Option.isSome_iff_exists.mp (h r (by simp))
    rw [mkExamples, hl, ih (i + 1) (fun r hr => h r (by simp [hr]))]
    simp [List.enumFrom, hl]

/-- C6: for a CSV whose `is_best` cells all convert to integers,
`_create_examples` returns exactly one example per data row, in file
order, the text fields being the string coercion of the `title` and
`reply` cells and each label the integer coercion of the `is_best` cell. -/
theorem create_examples_spec (rows : List Row)
    (h : ∀ r ∈ rows, (cellInt r.is_best).isSome) :
    _create_examples rows = some ((rows.enum).map fun p =>
      { guid := p.1, text_a := cellStr p.2.title, text_b := cellStr p.2.reply,
        label := (cellInt p.2.is_best).getD 0 }) ∧
    ((rows.enum).map fun p : ℕ × Row =>
      ({ guid := p.1, text_a := cellStr p.2.title, text_b := cellStr p.2.reply,
         label := (cellInt p.2.is_best).getD 0 } : InputExample)).length = rows.length := by
  refine ⟨?_, by simp⟩
  rw [_create_examples, mkExamples_eq rows 0 h]
  rfl

/-- Witness for C6 on a concrete two-row CSV with a numeric `title` cell. -/
theorem create_examples_spec_witness :
    (∀ r ∈ [({ title := .int 7, reply := .str "yes", is_best := .int 1 } : Row),
            { title := .str "q", reply := .str "no", is_best := .int 0 }],
        (cellInt r.is_best).isSome) ∧
    _create_examples
        [{ title := .int 7, reply := .str "yes", is_best := .int 1 },
         { title := .str "q", reply := .str "no", is_best := .int 0 }] =
      some (([({ title := .int 7, reply := .str "yes", is_best := .int 1 } : Row),
              { title := .str "q", reply := .str "no", is_best := .int 0 }].enum).map
        fun p =>
          { guid := p.1, text_a := cellStr p.2.title, text_b := cellStr p.2.reply,
            label := (cellInt p.2.is_best).getD 0 }) :=
  ⟨by decide,
    (create_examples_spec _
      (by decide)).1⟩

/-! ## C1: checkpoint policy -/

/-- Every save event carries an epoch index at least the starting index. -/
lemma saveEvents_index_ge (ms : List ℚ) :
    ∀ (best : ℚ) (i : ℕ) (p : ℕ × ℚ), p ∈ saveEvents best i ms → i ≤ p.1 := by
  induction ms with
  | nil => intro best i p h; simp [saveEvents] at h
  | cons m rest ih =>
    intro best i p h
    rw [saveEvents] at h
    split_ifs at h with hc
    · rcases List.mem_cons.mp h with h1 | h1
      · simp [h1]
      · exact le_trans (Nat.le_succ i) (ih _ _ _ h1)
    · exact le_trans (Nat.le_succ i) (ih _ _ _ h)

/-- Every save event carries a metric value above the incoming best. -/
lemma saveEvents_val_gt (ms : List ℚ) :
    ∀ (best : ℚ) (i : ℕ) (p : ℕ × ℚ), p ∈ saveEvents best i ms → best < p.2 := by
  induction ms with
  | nil => intro best i p h; simp [saveEvents] at h
  | cons m rest ih =>
    intro best i p h
    rw [saveEvents] at h
    split_ifs at h with hc
    · rcases List.mem_cons.mp h with h1 | h1
      · simp [h1, hc]
      · exact lt_trans hc (ih _ _ _ h1)
    · exact ih _ _ _ h

/-- The metric values recorded at successive save events strictly
increase. -/
lemma saveEvents_chain (ms : List ℚ) :
    ∀ (best : ℚ) (i : ℕ),
      List.Chain' (fun a b : ℕ × ℚ => a.2 < b.2) (saveEvents best i ms) := by
  induction ms with
  | nil => intro best i; simp [saveEvents]
  | cons m rest ih =>
    intro best i
    rw [saveEvents]
    split_ifs with hc
    · refine List.chain'_cons'.mpr ⟨?_, ih m (i + 1)⟩
      intro y hy
      exact saveEvents_val_gt rest m (i + 1) y (List.mem_of_mem_head? hy)
    · exact ih best (i + 1)

/-- Membership of an epoch index among the save events: epoch `k` is saved
exactly when its metric strictly exceeds the running maximum of the best
tracker over the earlier epochs. -/
lemma saveEvents_fst_mem (ms : List ℚ) :
    ∀ (best : ℚ) (i k : ℕ) (hk : k < ms.length),
      ((i + k) ∈ (saveEvents best i ms).map Prod.fst ↔
        (ms.take k).foldl max best < ms.get ⟨k, hk⟩) := by
  induction ms with
  | nil => intro best i k hk; exact absurd hk (by simp)
  | cons m rest ih =>
    intro best i k hk
    cases k with
    | zero =>
      rw [saveEvents]
      split_ifs with hc
      · exact iff_of_true (by simp) hc
      · refine iff_of_false ?_ hc
        intro hmem
        obtain ⟨p, hp, hfst⟩ := List.mem_map.mp hmem
        have := saveEvents_index_ge rest best (i + 1) p hp
        omega
    | succ k' =>
      have hk' : k' < rest.length := by simpa using hk
      rw [saveEvents]
      split_ifs with hc
      · have hne : i + (k' + 1) ≠ i := by omega
        have hstep : i + (k' + 1) = (i + 1) + k' := by omega
        simp only [List.map_cons, List.mem_cons, hne, false_or]
        rw [hstep, ih m (i + 1) k' hk']
        simp [List.foldl_cons, max_eq_right (le_of_lt hc)]
      · have hstep : i + (k' + 1) = (i + 1) + k' := by omega
        rw [hstep, ih best (i + 1) k' hk']
        simp [List.foldl_cons, max_eq_left (le_of_not_lt hc)]

/-- C1: a checkpoint is saved after an epoch exactly when its combined
accuracy/F1 strictly exceeds the best value of all earlier epochs (best
initialized to 0); the saved metric values are strictly increasing; on the
sequence [0.5, 0.7, 0.6, 0.8] the saves are exactly at the epochs scoring
0.5, 0.7 and 0.8, never at 0.6. -/
theorem checkpoint_policy_spec (ms : List ℚ) (k : ℕ) (hk : k < ms.length) :
    (k ∈ (checkpointSaves ms).map Prod.fst ↔
      bestFold (ms.take k) < ms.get ⟨k, hk⟩) ∧
    List.Chain' (fun a b : ℕ × ℚ => a.2 < b.2) (checkpointSaves ms) ∧
    checkpointSaves [1/2, 7/10, 3/5, 4/5] = [(0, 1/2), (1, 7/10), (3, 4/5)] := by
  refine ⟨?_, saveEvents_chain ms 0 0, by norm_num [checkpointSaves, saveEvents]⟩
  have h := saveEvents_fst_mem ms 0 0 k hk
  simpa [checkpointSaves, bestFold] using h

/-- Witness for C1 at a concrete one-epoch metric sequence. -/
theorem checkpoint_policy_spec_witness :
    (0 < [(1 : ℚ) / 2].length) ∧
    ((0 ∈ (checkpointSaves [(1 : ℚ) / 2]).map Prod.fst ↔
      bestFold ([(1 : ℚ) / 2].take 0) < [(1 : ℚ) / 2].get ⟨0, by decide⟩) ∧
    List.Chain' (fun a b : ℕ × ℚ => a.2 < b.2) (checkpointSaves [(1 : ℚ) / 2]) ∧
    checkpointSaves [1/2, 7/10, 3/5, 4/5] = [(0, 1/2), (1, 7/10), (3, 4/5)]) :=
  ⟨by decide, checkpoint_policy_spec [(1 : ℚ) / 2] 0 (by decide)⟩

/-! ## C2: feature cache behavior -/

/-- C2: when the fixed per-split cache file exists, the serialized features
are returned unconditionally - for any run arguments, any CSV contents and
any tokenizer-driven converter - and the world is untouched (tokenizer
never invoked, CSV never read); when it does not exist, the features are
computed from the split CSV and serialized under that fixed filename,
invoking the tokenizer and reading the CSV once. -/
theorem load_and_cache_policy {F : Type} (args args2 : Args)
    (csv csv2 : String → Option (List Row))
    (convert convert2 : List InputExample → ℕ → List F)
    (ev : Bool) (w : CacheWorld F) :
    (∀ fs, w.cache (cached_features_file ev) = some fs →
      load_and_cache_examples args csv convert ev w = (.ok fs, w) ∧
      load_and_cache_examples args2 csv2 convert2 ev w = (.ok fs, w)) ∧
    (w.cache (cached_features_file ev) = none →
      ∀ rows examples,
        csv (args.data_dir ++ (if ev then "/dev.csv" else "/train.csv")) = some rows →
        _create_examples rows = some examples →
        load_and_cache_examples args csv convert ev w =
          (.ok (convert examples args.max_seq_length),
            { cache := fun n =>
                if n = cached_features_file ev
                then some (convert examples args.max_seq_length) else w.cache n
              tokenizerCalls := w.tokenizerCalls + 1
              csvReads := w.csvReads + 1 })) := by
  constructor
  · intro fs hfs
    constructor <;> simp [load_and_cache_examples, hfs]
  · intro hnone rows examples hcsv hex
    simp [load_and_cache_examples, hnone, hcsv, hex]

/-- Witness for C2: a cache hit on the dev split returns the serialized
features untouched, and a cache miss on the train split computes, returns
and serializes the converted features. -/
theorem load_and_cache_policy_witness :
    (wHit.cache (cached_features_file true) = some [3] ∧
      load_and_cache_examples argsA csvData convertLen true wHit = (.ok [3], wHit)) ∧
    (wMiss.cache (cached_features_file false) = none ∧
      csvData (argsA.data_dir ++ (if false then "/dev.csv" else "/train.csv")) =
        some [{ title := .str "t", reply := .str "r", is_best := .int 1 }] ∧
      _create_examples [{ title := .str "t", reply := .str "r", is_best := .int 1 }] =
        some [{ guid := 0, text_a := "t", text_b := "r", label := 1 }] ∧
      load_and_cache_examples argsA csvData convertLen false wMiss =
        (.ok (convertLen [{ guid := 0, text_a := "t", text_b := "r", label := 1 }]
            argsA.max_seq_length),
          { cache := fun n =>
              if n = cached_features_file false
              then some (convertLen [{ guid := 0, text_a := "t", text_b := "r", label := 1 }]
                argsA.max_seq_length)
              else wMiss.cache n
            tokenizerCalls := wMiss.tokenizerCalls + 1
            csvReads := wMiss.csvReads + 1 })) := by
  have hhit : wHit.cache (cached_features_file true) = some [3] := by
    simp [wHit, cached_features_file]
  have hnone : wMiss.cache (cached_features_file false) = none := rfl
  have hcsv : csvData (argsA.data_dir ++ (if false then "/dev.csv" else "/train.csv")) =
      some [{ title := .str "t", reply := .str "r", is_best := .int 1 }] := by
    simp [csvData, argsA]
  have hex : _create_examples [{ title := .str "t", reply := .str "r", is_best := .int 1 }] =
      some [{ guid := 0, text_a := "t", text_b := "r", label := 1 }] := rfl
  exact ⟨⟨hhit,
      ((load_and_cache_policy argsA argsA csvData csvData convertLen convertLen true
        wHit).1 [3] hhit).1⟩,
    hnone, hcsv, hex,
    (load_and_cache_policy argsA argsA csvData csvData convertLen convertLen false
        wMiss).2 hnone _ _ hcsv hex⟩

/-! ## Closed form of the training loop (shared by C3 and C9) -/

/-- Appending a step leaves the already complete logging intervals
untouched. -/
lemma chunk_append (steps : List StepData) (a : StepData) (k : ℕ)
    (h : 100 * k + 100 ≤ steps.length) :
    chunk (steps ++ [a]) k = chunk steps k := by
  unfold chunk
  rw [List.drop_append_of_le_length (by omega),
    List.take_append_of_le_length (by rw [List.length_drop]; omega)]

/-- Appending a step leaves the already written loss-file lines
untouched. -/
lemma lossLineSpec_append (bs : ℕ) (steps : List StepData) (a : StepData) (k : ℕ)
    (h : 100 * k + 100 ≤ steps.length) :
    lossLineSpec bs (steps ++ [a]) k = lossLineSpec bs steps k := by
  unfold lossLineSpec
  rw [chunk_append _ _ _ h, List.getD_append _ _ _ _ (by omega)]

/-- Appending a step leaves the already written acc-file lines untouched. -/
lemma accLineSpec_append (bs : ℕ) (steps : List StepData) (a : StepData) (k : ℕ)
    (h : 100 * k + 100 ≤ steps.length) :
    accLineSpec bs (steps ++ [a]) k = accLineSpec bs steps k := by
  unfold accLineSpec
  rw [chunk_append _ _ _ h, List.getD_append _ _ _ _ (by omega)]

/-- All complete logging intervals of an epoch keep their loss-file lines
when a step is appended. -/
lemma mapRange_lossLineSpec_append (bs : ℕ) (l : List StepData) (a : StepData) :
    (List.range (l.length / 100)).map (lossLineSpec bs (l ++ [a])) =
      (List.range (l.length / 100)).map (lossLineSpec bs l) :=
  List.map_congr_left fun k hk => lossLineSpec_append bs l a k
    (by have := List.mem_range.mp hk; omega)

/-- All complete logging intervals of an epoch keep their acc-file lines
when a step is appended. -/
lemma mapRange_accLineSpec_append (bs : ℕ) (l : List StepData) (a : StepData) :
    (List.range (l.length / 100)).map (accLineSpec bs (l ++ [a])) =
      (List.range (l.length / 100)).map (accLineSpec bs l) :=
  List.map_congr_left fun k hk => accLineSpec_append bs l a k
    (by have := List.mem_range.mp hk; omega)

/-- When the appended step completes an interval, the data of the new
interval is the pending tail together with that step. -/
lemma chunk_last (l : List StepData) (a : StepData)
    (hdvd : (l.length + 1) % 100 = 0) :
    chunk (l ++ [a]) (l.length / 100) = l.drop (100 * (l.length / 100)) ++ [a] := by
  unfold chunk
  rw [List.drop_append_of_le_length (by omega), List.take_append_eq_append_take,
    List.take_of_length_le (by rw [List.length_drop]; omega), List.length_drop,
    List.take_of_length_le (by simp; omega)]

/-- When the appended step completes an interval, that step is the one the
log event reads the learning rate from. -/
lemma getD_last (l : List StepData) (a : StepData)
    (hdvd : (l.length + 1) % 100 = 0) :
    (l ++ [a]).getD (100 * (l.length / 100) + 99) default = a := by
  rw [List.getD_append_right _ _ _ _ (by omega)]
  have h0 : 100 * (l.length / 100) + 99 - l.length = 0 := by omega
  rw [h0]
  rfl

/-- One loop iteration moves the closed-form state of an epoch to the
closed-form state of the epoch extended by that step. -/
lemma trainStep_spec (bs : ℕ) (l : List StepData) (a : StepData) :
    trainStep bs (trainStateSpec bs l) a = trainStateSpec bs (l ++ [a]) := by
  have hql : 100 * (l.length / 100) ≤ l.length := by omega
  by_cases hdvd : (l.length + 1) % 100 = 0
  · have hq : ((l ++ [a]).length) / 100 = l.length / 100 + 1 := by
      simp only [List.length_append, List.length_singleton]
      omega
    have h100 : (100 * (l.length / 100 + 1) : ℕ) = l.length + 1 := by omega
    have hlen1 : (l ++ [a]).length ≤ 100 * (l.length / 100 + 1) := by
      simp only [List.length_append, List.length_singleton]
      omega
    simp only [trainStep, trainStateSpec]
    rw [if_pos (by simpa using hdvd)]
    rw [TrainState.mk.injEq]
    refine ⟨by simp, ?_, by simp, ?_, ?_, ?_, ?_⟩
    · rw [hq, List.drop_eq_nil_of_le hlen1]
      simp
    · rw [hq, List.drop_eq_nil_of_le hlen1]
      simp
    · rw [hq, List.drop_eq_nil_of_le hlen1]
      simp
    · rw [hq, List.range_succ]
      conv_rhs => rw [List.map_append]
      rw [mapRange_lossLineSpec_append]
      congr 1
      simp only [List.map_singleton, List.cons.injEq, and_true]
      unfold lossLineSpec
      rw [LossLine.mk.injEq]
      refine ⟨by omega, by rw [getD_last l a hdvd], ?_⟩
      rw [chunk_last l a hdvd]
      simp only [List.map_append, List.sum_append, List.map_cons, List.map_nil,
        List.sum_cons, List.sum_nil, add_zero]
      congr 1
      congr 1
      exact_mod_cast h100.symm
    · rw [hq, List.range_succ]
      conv_rhs => rw [List.map_append]
      rw [mapRange_accLineSpec_append]
      congr 1
      simp only [List.map_singleton, List.cons.injEq, and_true]
      unfold accLineSpec
      rw [AccLine.mk.injEq]
      refine ⟨by omega, by rw [getD_last l a hdvd], by simp, ?_, ?_⟩
      · rw [chunk_last l a hdvd]
        simp
      · rw [chunk_last l a hdvd]
        simp
  · have hq : ((l ++ [a]).length) / 100 = l.length / 100 := by
      simp only [List.length_append, List.length_singleton]
      omega
    have hdropapp :
        (l ++ [a]).drop (100 * (l.length / 100)) =
          l.drop (100 * (l.length / 100)) ++ [a] :=
      List.drop_append_of_le_length (by omega)
    simp only [trainStep, trainStateSpec]
    rw [if_neg (by simpa using hdvd)]
    rw [TrainState.mk.injEq]
    refine ⟨by simp, ?_, by simp, ?_, ?_, ?_, ?_⟩
    · rw [hq, hdropapp]
      simp
    · rw [hq, hdropapp]
      simp
    · rw [hq, hdropapp]
      simp
    · rw [hq]
      exact (mapRange_lossLineSpec_append bs l a).symm
    · rw [hq]
      exact (mapRange_accLineSpec_append bs l a).symm

/-- The training loop fold reaches exactly the closed-form state. -/
lemma foldl_trainStep_spec (bs : ℕ) (steps : List StepData) :
    steps.foldl (trainStep bs) initTrainState = trainStateSpec bs steps := by
  induction steps using List.reverseRecOn with
  | nil => rfl
  | append_singleton l a ih => rw [List.foldl_concat, ih, trainStep_spec]

/-! ## C3: periodic loss logging -/

/-- C3 (counterexample): the claim that the logged loss is the loss
accumulated since the last log event divided by the number of steps in
that interval times the batch size fails at the second log event of a
concrete 200-step epoch with unit losses: the code divides the
accumulated loss by `global_step * batch_size` (here 200 x 64), not by the
interval length times the batch size (100 x 64). -/
theorem train_loss_log_counterexample :
    ((train argsA steps200).lossLines.getD 1 default).loss ≠
      (((steps200.drop 100).take 100).map StepData.loss).sum /
        ((100 : ℚ) * (argsA.train_batch_size : ℚ)) := by
  have hloss : (train argsA steps200).lossLines =
      (List.range 2).map (lossLineSpec argsA.train_batch_size steps200) := by
    simp only [train, foldl_trainStep_spec, trainStateSpec]
    norm_num [steps200]
  rw [hloss]
  have h01 : (List.range 2).map (lossLineSpec argsA.train_batch_size steps200) =
      [lossLineSpec argsA.train_batch_size steps200 0,
       lossLineSpec argsA.train_batch_size steps200 1] := by
    norm_num [List.range_succ]
  rw [h01]
  simp only [List.getD_cons_succ, List.getD_cons_zero]
  have hchunk : (steps200.drop 100).take 100 =
      List.replicate 100 ({ loss := 1, lr := 0, logits := [], labels := [] } : StepData) := by
    simp [steps200, List.drop_replicate, List.take_replicate]
  have hsum : ((List.replicate 100
      ({ loss := 1, lr := 0, logits := [], labels := [] } : StepData)).map
        StepData.loss).sum = 100 := by
    rw [List.map_replicate, List.sum_replicate, nsmul_eq_mul]
    norm_num
  unfold lossLineSpec chunk
  norm_num [hchunk, hsum, argsA]

/-- C3 (amended): at every step whose global index is a multiple of 100
the training loop writes a loss-file line holding the global step index,
the current learning rate, and the loss accumulated since the last log
event divided by the global step index times the batch size (not by the
interval length times the batch size), and afterwards the loss accumulator
and the prediction/label accumulators are reset, so the k-th acc-file line
carries exactly the predictions and labels of the k-th 100-step interval
and the k-th loss-file line exactly the loss sum of that interval. -/
theorem train_loss_log_lines (args : Args) (steps : List StepData) :
    (train args steps).lossLines =
      (List.range (steps.length / 100)).map (lossLineSpec args.train_batch_size steps) ∧
    (train args steps).accLines =
      (List.range (steps.length / 100)).map (accLineSpec args.train_batch_size steps) := by
  constructor <;> simp only [train, foldl_trainStep_spec, trainStateSpec]

/-! ## C9: acc-file lines always report a zero loss -/

/-- C9: every line the training loop writes to the metrics log reports a
loss of exactly 0, because `logging_loss` is reset to zero before the line
is formatted. -/
theorem acc_lines_report_zero_loss (args : Args) (steps : List StepData) :
    List.Forall (fun line : AccLine => line.loss = 0) (train args steps).accLines := by
  rw [List.forall_iff_forall_mem]
  intro line hline
  have hacc : (train args steps).accLines =
      (List.range (steps.length / 100)).map (accLineSpec args.train_batch_size steps) := by
    simp only [train, foldl_trainStep_spec, trainStateSpec]
  rw [hacc] at hline
  obtain ⟨k, hk, rfl⟩ := List.mem_map.mp hline
  simp [accLineSpec]

/-! ## C8: the logging_steps flag -/

/-- C8 (counterexample): two runs identical except for `--logging_steps` do
not produce identical checkpoints: the run-arguments file serialized into
the checkpoint by `torch.save(args, ...)` records the differing
`logging_steps` value, shown here on a one-epoch run that saves once. -/
theorem logging_steps_counterexample :
    argsB = { argsA with logging_steps := 100 } ∧
    checkpointArgsFiles argsB [1/2] ≠ checkpointArgsFiles argsA [1/2] := by
  refine ⟨rfl, ?_⟩
  intro h
  have h1 : checkpointArgsFiles argsB [1/2] = [(0, argsB)] := by
    norm_num [checkpointArgsFiles, checkpointSaves, saveEvents]
  have h2 : checkpointArgsFiles argsA [1/2] = [(0, argsA)] := by
    norm_num [checkpointArgsFiles, checkpointSaves, saveEvents]
  rw [h1, h2] at h
  have h3 := congrArg
    (fun lst : List (ℕ × Args) => ((lst.getD 0 (0, argsA)).2).logging_steps) h
  simp [argsA, argsB] at h3

/-- C8 (amended): the `--logging_steps` value never influences control flow
or any observable output - the training loop logs at the hardcoded interval
of 100 steps, and the evaluation loop, the feature cache, the log
directory setup and the set of epochs at which checkpoints are saved are
all identical across runs differing only in `logging_steps` - except that
the run-arguments file serialized into each saved checkpoint records the
changed value. -/
theorem logging_steps_no_effect {F : Type} (args : Args) (v : ℕ)
    (steps esteps : List StepData)
    (csv : String → Option (List Row)) (convert : List InputExample → ℕ → List F)
    (ev : Bool) (w : CacheWorld F) (ms : List ℚ) (fs : FileSys) :
    train { args with logging_steps := v } steps = train args steps ∧
    evaluate { args with logging_steps := v } esteps = evaluate args esteps ∧
    load_and_cache_examples { args with logging_steps := v } csv convert ev w =
      load_and_cache_examples args csv convert ev w ∧
    logDirPath { args with logging_steps := v } = logDirPath args ∧
    setupLogDir fs (logDirPath { args with logging_steps := v }) =
      setupLogDir fs (logDirPath args) ∧
    (checkpointArgsFiles { args with logging_steps := v } ms).map Prod.fst =
      (checkpointArgsFiles args ms).map Prod.fst := by
  refine ⟨rfl, rfl, rfl, rfl, rfl, ?_⟩
  simp [checkpointArgsFiles, List.map_map, Function.comp]

/-! ## C5: Pearson and Spearman correlations -/

/-- The inner product of a list with itself is its sum of squares. -/
lemma ldot_self (xs : List ℚ) : ldot xs xs = (xs.map (fun z => z * z)).sum := by
  rw [ldot, List.zipWith_same]

/-- A sum of squares of rationals is nonnegative. -/
lemma sum_sq_nonneg (xs : List ℚ) : 0 ≤ (xs.map (fun z => z * z)).sum := by
  refine List.sum_nonneg ?_
  intro y hy
  obtain ⟨z, _, rfl⟩ := List.mem_map.mp hy
  exact mul_self_nonneg z

/-- The squared-deviation sum is nonnegative. -/
lemma ssq_nonneg (xs : List ℚ) : 0 ≤ ssq xs :=
  sum_sq_nonneg (centered xs)

/-- A vanishing sum of squares forces every entry to vanish. -/
lemma sum_sq_eq_zero (xs : List ℚ) (h : (xs.map (fun z => z * z)).sum = 0) :
    ∀ z ∈ xs, z = 0 := by
  induction xs with
  | nil => simp
  | cons y ys ih =>
    simp only [List.map_cons, List.sum_cons] at h
    have hy : 0 ≤ y * y := mul_self_nonneg y
    have hs : 0 ≤ (ys.map (fun z => z * z)).sum := sum_sq_nonneg ys
    have hy0 : y * y = 0 := by linarith
    have hs0 : (ys.map (fun z => z * z)).sum = 0 := by linarith
    intro z hz
    rcases List.mem_cons.mp hz with rfl | hz
    · exact mul_self_eq_zero.mp hy0
    · exact ih hs0 z hz

/-- When the squared-deviation sum vanishes every element equals the
mean. -/
lemma ssq_zero_all_mean (xs : List ℚ) (h : ssq xs = 0) :
    ∀ a ∈ xs, a = lmean xs := by
  intro a ha
  have hz := sum_sq_eq_zero (centered xs) h (a - lmean xs)
    (List.mem_map_of_mem _ ha)
  linarith

/-- A nonvanishing squared-deviation sum exhibits two distinct elements. -/
lemma ssq_ne_zero_exists (xs : List ℚ) (h : ssq xs ≠ 0) :
    ∃ a ∈ xs, ∃ b ∈ xs, a ≠ b := by
  by_contra hc
  push_neg at hc
  apply h
  unfold ssq
  apply List.sum_eq_zero
  intro y hy
  obtain ⟨z, hz, rfl⟩ := List.mem_map.mp hy
  obtain ⟨a, ha, rfl⟩ := List.mem_map.mp hz
  have hall : ∀ b ∈ xs, b = a := fun b hb => hc b hb a ha
  have hlen : (0 : ℚ) < xs.length := by
    have := List.length_pos_of_mem ha
    exact_mod_cast this
  have hmean : lmean xs = a := by
    unfold lmean
    rw [List.sum_eq_card_nsmul xs a hall, nsmul_eq_mul]
    exact mul_div_cancel_left₀ a (by positivity)
  rw [hmean]
  ring

/-- Nonzero variance transfers along the Pearson self-correlation:
`pearsonr x x = 1`. -/
lemma pearson_self (x : List ℚ) (h : ssq x ≠ 0) : pearsonr x x = 1 := by
  unfold pearsonr
  rw [ldot_self]
  have h0 : (0 : ℚ) ≤ ssq x := ssq_nonneg x
  have hnum : ((centered x).map (fun z => z * z)).sum = ssq x := rfl
  rw [hnum, Rat.cast_mul, Real.sqrt_mul_self (by exact_mod_cast h0)]
  rw [div_self (by exact_mod_cast h)]

/-- Adding the element itself, the count of elements at most `b` strictly
exceeds the count of elements strictly below `b`. -/
lemma countP_lt_add_one_le (l : List ℚ) (b : ℚ) (hb : b ∈ l) :
    l.countP (fun x => x < b) + 1 ≤ l.countP (fun x => x ≤ b) := by
  induction l with
  | nil => simp at hb
  | cons y ys ih =>
    rw [List.countP_cons, List.countP_cons]
    have hmono : ys.countP (fun x => x < b) ≤ ys.countP (fun x => x ≤ b) := by
      refine List.countP_mono_left ?_
      intro x _ hx
      simp only [decide_eq_true_eq] at hx ⊢
      exact le_of_lt hx
    rcases List.mem_cons.mp hb with rfl | hb
    · simp only [lt_irrefl, decide_eq_true_eq, le_refl]
      norm_num
      omega
    · have hrec := ih hb
      by_cases h1 : y < b
      · have h2 : y ≤ b := le_of_lt h1
        simp only [h1, h2, decide_eq_true_eq]
        norm_num
        omega
      · by_cases h2 : y ≤ b
        · simp only [h1, h2, decide_eq_true_eq]
          norm_num
          omega
        · simp only [h1, h2, decide_eq_true_eq]
          norm_num
          omega

/-- Average ranks are strictly monotone on the values present in the
list. -/
lemma rankOf_strict (l : List ℚ) (a b : ℚ) (ha : a ∈ l) (hb : b ∈ l)
    (hab : a < b) : rankOf l a < rankOf l b := by
  unfold rankOf
  have m1 : l.countP (fun x => x < a) ≤ l.countP (fun x => x < b) := by
    refine List.countP_mono_left ?_
    intro x _ hx
    simp only [decide_eq_true_eq] at hx ⊢
    exact lt_trans hx hab
  have m2 : l.countP (fun x => x ≤ a) ≤ l.countP (fun x => x < b) := by
    refine List.countP_mono_left ?_
    intro x _ hx
    simp only [decide_eq_true_eq] at hx ⊢
    exact lt_of_le_of_lt hx hab
  have m3 : l.countP (fun x => x < b) + 1 ≤ l.countP (fun x => x ≤ b) :=
    countP_lt_add_one_le l b hb
  have hnat : l.countP (fun x => x < a) + l.countP (fun x => x ≤ a) + 1 <
      l.countP (fun x => x < b) + l.countP (fun x => x ≤ b) + 1 := by omega
  have hq : ((l.countP (fun x => x < a) : ℚ) + (l.countP (fun x => x ≤ a) : ℚ) + 1) <
      ((l.countP (fun x => x < b) : ℚ) + (l.countP (fun x => x ≤ b) : ℚ) + 1) := by
    exact_mod_cast hnat
  linarith

/-- Nonzero variance of the data gives nonzero variance of its average
ranks. -/
lemma ssq_ranks_ne_zero (x : List ℚ) (h : ssq x ≠ 0) : ssq (ranks x) ≠ 0 := by
  obtain ⟨a, ha, b, hb, hab⟩ := ssq_ne_zero_exists x h
  intro h0
  have hall := ssq_zero_all_mean (ranks x) h0
  have h1 := hall (rankOf x a) (by unfold ranks; exact List.mem_map_of_mem _ ha)
  have h2 := hall (rankOf x b) (by unfold ranks; exact List.mem_map_of_mem _ hb)
  have heq : rankOf x a = rankOf x b := by rw [h1, h2]
  rcases lt_or_gt_of_ne hab with hlt | hgt
  · exact absurd heq (ne_of_lt (rankOf_strict x a b ha hb hlt))
  · exact absurd heq.symm (ne_of_lt (rankOf_strict x b a hb ha hgt))

/-- C5: `pearson_and_spearman` returns a `corr` field that is exactly the
arithmetic mean of its `pearson` and `spearmanr` fields, and on identical
inputs with nonzero variance both correlations equal 1. -/
theorem pearson_and_spearman_spec (preds labels : List ℚ) :
    (pearson_and_spearman preds labels).corr =
      ((pearson_and_spearman preds labels).pearson +
        (pearson_and_spearman preds labels).spearmanr) / 2 ∧
    (labels = preds → ssq preds ≠ 0 →
      (pearson_and_spearman preds labels).pearson = 1 ∧
      (pearson_and_spearman preds labels).spearmanr = 1) := by
  refine ⟨rfl, ?_⟩
  rintro rfl hssq
  constructor
  · show pearsonr labels labels = 1
    exact pearson_self labels hssq
  · show spearmanr labels labels = 1
    unfold spearmanr
    exact pearson_self (ranks labels) (ssq_ranks_ne_zero labels hssq)

/-- Witness for C5 at the identical pair `[0, 1]`, which has nonzero
variance. -/
theorem pearson_and_spearman_spec_witness :
    (([(0 : ℚ), 1] = [(0 : ℚ), 1]) ∧ ssq [(0 : ℚ), 1] ≠ 0) ∧
    ((pearson_and_spearman [(0 : ℚ), 1] [(0 : ℚ), 1]).pearson = 1 ∧
      (pearson_and_spearman [(0 : ℚ), 1] [(0 : ℚ), 1]).spearmanr = 1) :=
  ⟨⟨rfl, by norm_num [ssq, centered, lmean]⟩,
    (pearson_and_spearman_spec [(0 : ℚ), 1] [(0 : ℚ), 1]).2 rfl
      (by norm_num [ssq, centered, lmean])⟩

end BertMain
